import Mathlib

/-!
Shallow embedding of the sync-text realtime collaboration backend
(`src/backend/src/shared/services` and companion service files), together
with proofs checking the natural-language specification against it.

The embedding models the Redis cache store with pure data structures:
a hash (`HSET`/`HDEL`/`HGETALL`) is an association list whose keys are the
hash fields, lists are Lean lists (`LPUSH` is cons, `LPOP` pops the head),
and sorted sets holding timestamps are lists of `Nat` filtered by score.
Wall-clock times are `Nat` milliseconds passed explicitly.  Asynchronous
service calls that can fail are passed in as explicit outcome values.
-/

namespace SyncText

/-! Part 1: definitions. -/

/-! Section: Redis hash primitives

An association list plays the role of a Redis hash: `hset` overwrites the
value of an existing field in place and otherwise prepends a fresh field,
`hdel` removes a field.  These mirror `HSET` and `HDEL`. -/

/-- Embedding of `HSET`: overwrite the field `k` if present, otherwise add it. -/
def hset (l : List (String × α)) (k : String) (v : α) : List (String × α) :=
  if l.any (fun p => p.1 = k) then
    l.map (fun p => if p.1 = k then (k, v) else p)
  else
    (k, v) :: l

/-- Embedding of `HDEL`: remove the field `k`. -/
def hdel (l : List (String × α)) (k : String) : List (String × α) :=
  l.filter (fun p => p.1 ≠ k)

/-- Embedding of `HGET`: look up the field `k`. -/
def hget (l : List (String × α)) (k : String) : Option α :=
  (l.find? (fun p => p.1 = k)).map (·.2)

/-! Section: Presence registry (`ActiveSessionsService`, src/unnamed/part_029)

One document's session hash `session:{documentId}`: fields are user ids,
values are serialized session records.  The four mutating operations the
service exposes on a single document's hash are `addSession`,
`removeSession`, `updateLastActive` and the per-key part of
`cleanupStaleSessions`. -/

/-- A session record as stored in the hash (`ActiveSession` in the source,
minus the JSON round-trip). -/
structure ActiveSession where
  userId : String
  username : String
  socketId : String
  cursorPosition : Option String
  lastActive : Nat
  deriving Repr, DecidableEq

/-- The session hash of one document: Redis hash field `userId` ↦ session. -/
abbrev SessionHash := List (String × ActiveSession)

/-- Embedding of `ActiveSessionsService.SESSION_TTL` (seconds). -/
def SESSION_TTL : Nat := 300

/-- Embedding of `ActiveSessionsService.addSession`: `HSET key userId sessionData` with
`lastActive = now`; the TTL refresh does not change the hash contents. -/
def addSession (h : SessionHash) (userId username socketId : String)
    (cursorPosition : Option String) (now : Nat) : SessionHash :=
  hset h userId
    { userId := userId, username := username, socketId := socketId,
      cursorPosition := cursorPosition, lastActive := now }

/-- Embedding of `ActiveSessionsService.removeSession` restricted to the hash contents:
`HDEL key userId` (the preceding `HGET` is only used for logging). -/
def removeSessionField (h : SessionHash) (userId : String) : SessionHash :=
  hdel h userId

/-- Embedding of `ActiveSessionsService.updateLastActive`: `HGET`, and when present,
`HSET` the record back with a fresh `lastActive`. -/
def updateLastActive (h : SessionHash) (userId : String) (now : Nat) :
    SessionHash :=
  match hget h userId with
  | none => h
  | some s => hset h userId { s with lastActive := now }

/-- The per-key body of `ActiveSessionsService.cleanupStaleSessions`:
fields whose `lastActive` is below `now - SESSION_TTL * 1000` are removed
(`HDEL` of the collected stale user ids). -/
def cleanupStaleSessions (h : SessionHash) (now : Nat) : SessionHash :=
  h.filter (fun p => ¬ p.2.lastActive < now - SESSION_TTL * 1000)

/-- Embedding of `ActiveSessionsService.getDocumentSessionCount`: `HLEN`. -/
def getDocumentSessionCount (h : SessionHash) : Nat := h.length

/-- One operation of the presence registry on a single document. -/
inductive SessionOp where
  | add (userId username socketId : String) (cursorPosition : Option String)
      (now : Nat)
  | remove (userId : String)
  | touch (userId : String) (now : Nat)
  | sweep (now : Nat)
  deriving Repr

/-- Apply one operation to the document's session hash. -/
def applySessionOp (h : SessionHash) : SessionOp → SessionHash
  | .add u un sid cur now => addSession h u un sid cur now
  | .remove u => removeSessionField h u
  | .touch u now => updateLastActive h u now
  | .sweep now => cleanupStaleSessions h now

/-- Run a sequence of operations from the empty hash. -/
def runSessionOps (ops : List SessionOp) : SessionHash :=
  ops.foldl applySessionOp []

/-! Section: The cache store holding the session hashes (`removeSession`)

For claim C9 the observable is the whole cache store, not a single hash.
Redis never stores an empty aggregate: deleting the last field of a hash
with `HDEL` removes the key itself (documented Redis behavior for all
collection types).  `storeHdel` embeds `HDEL` at store level with exactly
that semantics. -/

/-- The cache store restricted to hash-valued keys: key ↦ hash. -/
abbrev HashStore := List (String × SessionHash)

/-- Store-level `HDEL key field`: removes `field` from the hash at `key`;
a hash left with no fields disappears from the store (Redis removes keys
whose collection value becomes empty). -/
def storeHdel (st : HashStore) (key field : String) : HashStore :=
  match hget st key with
  | none => st
  | some h =>
      let h' := hdel h field
      if h'.isEmpty then st.filter (fun p => p.1 ≠ key) else hset st key h'

/-- The session key of a document: `session:{documentId}`. -/
def sessionKey (documentId : String) : String := "session:" ++ documentId

/-- Embedding of `ActiveSessionsService.removeSession` as it acts on the cache store:
`HDEL session:{documentId} userId` (the preceding `HGET` only feeds a log
line). -/
def removeSession (st : HashStore) (documentId userId : String) : HashStore :=
  storeHdel st (sessionKey documentId) userId

/-- Looking up a single session field through the store. -/
def storeFieldGet (st : HashStore) (key field : String) :
    Option ActiveSession :=
  (hget st key).bind (fun h => hget h field)

/-! Section: Content cache (`RedisService`, src/unnamed/part_028)

`doc:content:{documentId}` holds `{content, title, cachedAt, version}`.
The outcome of the underlying `GET` is passed in as a `CacheFetch`. -/

/-- A cached document snapshot (`cacheDocumentContent` shape). -/
structure CachedDocumentContent where
  content : String
  title : Option String
  cachedAt : String
  version : Nat
  deriving Repr, DecidableEq

/-- Outcome of reading `doc:content:{documentId}` from the store. -/
inductive CacheFetch where
  | err
  | miss
  | hit (c : CachedDocumentContent)
  deriving Repr, DecidableEq

/-- Embedding of `RedisService.getCachedDocumentContent`: a store error is caught and
becomes `null`, a missing key is `null`. -/
def getCachedDocumentContent : CacheFetch → Option CachedDocumentContent
  | .err => none
  | .miss => none
  | .hit c => some c

/-- Result shape of `hasDocumentContentChanged`. -/
structure ChangeCheckResult where
  hasChanged : Bool
  cachedContent : Option String
  cachedTitle : Option String
  deriving Repr, DecidableEq

/-- Embedding of `RedisService.hasDocumentContentChanged`: no cached snapshot (or a
cache error, swallowed one level down) means changed; otherwise compare
content, and compare title only when a new title was provided. -/
def hasDocumentContentChanged (fetch : CacheFetch) (newContent : String)
    (newTitle : Option String) : ChangeCheckResult :=
  match getCachedDocumentContent fetch with
  | none => { hasChanged := true, cachedContent := none, cachedTitle := none }
  | some cached =>
      let contentChanged : Bool := cached.content ≠ newContent
      let titleChanged : Bool := newTitle.isSome && decide (cached.title ≠ newTitle)
      { hasChanged := contentChanged || titleChanged,
        cachedContent := some cached.content,
        cachedTitle := some (cached.title.getD "") }

/-- Modelled from the spec's words (§4.5), for comparison with the code:
`changed = true` if no cached snapshot or on cache error, else
`changed = (newBody != cachedBody) OR (newTitle provided AND newTitle !=
cachedTitle)`. -/
def hasChangedSpec (fetch : CacheFetch) (newBody : String)
    (newTitle : Option String) : Bool :=
  match fetch with
  | .err => true
  | .miss => true
  | .hit c => decide (newBody ≠ c.content) ||
      (newTitle.isSome && decide (newTitle ≠ c.title))

/-! Section: Rate limiter (`RateLimitService`, rate-limit.service.ts)

Per `(userId, messageType)` the store holds a sorted set of timestamps
under `rate_limit:{userId}:{type}` and an optional block value under
`rate_limit_block:{userId}:{type}` written with `SETEX`.  The sorted-set
member for a timestamp is the timestamp's own string, so two admissions
in the same millisecond occupy one member (`ZADD` keeps members unique).
Key TTLs are modeled by an explicit expiry time checked at read. -/

/-- Embedding of `RateLimitConfig` from the source. -/
structure RateLimitConfig where
  maxMessages : Nat
  windowMs : Nat
  blockDurationMs : Nat
  deriving Repr, DecidableEq

/-- Embedding of `RateLimitResult` from the source. -/
structure RateLimitResult where
  isLimited : Bool
  remaining : Nat
  resetTime : Nat
  blockedUntil : Option Nat
  deriving Repr, DecidableEq

/-- The block key's stored value and its `SETEX` expiry instant. -/
structure BlockEntry where
  blockedUntil : Nat
  expiresAt : Nat
  deriving Repr, DecidableEq

/-- State of one `(userId, messageType)` bucket. -/
structure RateLimitState where
  window : List Nat
  windowExpiresAt : Option Nat
  blocked : Option BlockEntry
  deriving Repr, DecidableEq

/-- Fresh bucket: no keys in the store. -/
def rlEmpty : RateLimitState := { window := [], windowExpiresAt := none, blocked := none }

/-- Embedding of `GET rate_limit_block:...` honoring the `SETEX` TTL. -/
def getBlock (s : RateLimitState) (now : Nat) : Option Nat :=
  match s.blocked with
  | none => none
  | some b => if b.expiresAt ≤ now then none else some b.blockedUntil

/-- The sorted-set contents honoring the window key's TTL. -/
def getWindow (s : RateLimitState) (now : Nat) : List Nat :=
  match s.windowExpiresAt with
  | none => s.window
  | some e => if e ≤ now then [] else s.window

/-- Embedding of `Math.ceil(blockDurationMs / 1000)`. -/
def ceilDiv1000 (n : Nat) : Nat := (n + 999) / 1000

/-- The sliding-window half of `RateLimitService.isRateLimited`: count the
members returned by `ZRANGEBYSCORE key windowStart +inf`; at or above the
limit, `SETEX` a block of `now + blockDurationMs`. -/
def checkRateWindow (config : RateLimitConfig) (s : RateLimitState)
    (now : Nat) : RateLimitResult × RateLimitState :=
  let windowStart := now - config.windowMs
  let currentCount := ((getWindow s now).filter (fun t => windowStart ≤ t)).length
  if config.maxMessages ≤ currentCount then
    let blockUntil := now + config.blockDurationMs
    ({ isLimited := true, remaining := 0,
       resetTime := windowStart + config.windowMs,
       blockedUntil := some blockUntil },
     { s with blocked := some ⟨blockUntil, now + ceilDiv1000 config.blockDurationMs * 1000⟩ })
  else
    ({ isLimited := false, remaining := config.maxMessages - currentCount,
       resetTime := windowStart + config.windowMs, blockedUntil := none }, s)

/-- Embedding of `RateLimitService.isRateLimited`: a live block in the future rejects;
an expired block value is deleted and the window is consulted. -/
def isRateLimited (config : RateLimitConfig) (s : RateLimitState)
    (now : Nat) : RateLimitResult × RateLimitState :=
  match getBlock s now with
  | some blockTime =>
      if now < blockTime then
        ({ isLimited := true, remaining := 0, resetTime := blockTime,
           blockedUntil := some blockTime }, s)
      else
        checkRateWindow config { s with blocked := none } now
  | none => checkRateWindow config s now

/-- Embedding of `RateLimitService.incrementRateLimit`: `ZADD key {score: now, value:
now.toString()}` (idempotent for an already-present timestamp member)
plus `EXPIRE key 7200`. -/
def incrementRateLimit (s : RateLimitState) (now : Nat) : RateLimitState :=
  let w := getWindow s now
  { window := if w.contains now then w else now :: w,
    windowExpiresAt := some (now + 7200000),
    blocked := s.blocked }

/-- One admission attempt as `WebSocketService.handleMessage` performs it
for a rate-limited message type: check, and only when admitted, process
and then append `now` to the window. -/
def admitStep (config : RateLimitConfig) (s : RateLimitState) (now : Nat) :
    Bool × RateLimitState :=
  let r := isRateLimited config s now
  if r.1.isLimited then (false, r.2) else (true, incrementRateLimit r.2 now)

/-- A sequence of admission attempts at the given times. -/
def runAttempts (config : RateLimitConfig) (s : RateLimitState) :
    List Nat → List Bool × RateLimitState
  | [] => ([], s)
  | t :: ts =>
      let step := admitStep config s t
      let rest := runAttempts config step.2 ts
      (step.1 :: rest.1, rest.2)

/-- Embedding of `WebSocketService.rateLimitConfigs`: the configured message types. -/
def rateLimitConfigs : List (String × RateLimitConfig) :=
  [("yjs-update", { maxMessages := 50, windowMs := 1000, blockDurationMs := 5000 }),
   ("awareness-update", { maxMessages := 30, windowMs := 1000, blockDurationMs := 3000 })]

/-! Section: Persistence queue (`QueueService`, queue.service.ts)

Pending and dead-letter are Redis lists (`LPUSH` prepends, `LPOP` pops
the head — the source pushes and pops the same end), processing is a
hash `jobId ↦ snapshot`.  A retry is an `LPUSH` scheduled by `setTimeout`,
modeled as an explicit entry in `delayedPushes`. -/

/-- Embedding of `QueueJob` control fields (`attempts?`, `maxAttempts?`, `delay?` are
optional in the source interface) plus the `document-update` payload. -/
structure QueueJob where
  id : String
  type : String
  documentId : String
  userId : String
  updTitle : Option String
  updContent : Option String
  priority : Option Nat
  attempts : Option Nat
  maxAttempts : Option Nat
  delay : Option Nat
  createdAt : Nat
  scheduledFor : Option Nat
  deriving Repr, DecidableEq

/-- JavaScript `x || d` on an optional number: `undefined` and `0` are
falsy. -/
def jsOr (o : Option Nat) (d : Nat) : Nat :=
  match o with
  | none => d
  | some v => if v = 0 then d else v

/-- A dead-letter entry: the job spread with `{error, failedAt}`. -/
structure FailedJob where
  job : QueueJob
  error : String
  failedAt : Nat
  deriving Repr, DecidableEq

/-- A processing-set entry: the job spread with `processingStartedAt`. -/
structure ProcessingEntry where
  job : QueueJob
  processingStartedAt : Nat
  deriving Repr, DecidableEq

/-- The three queue structures. -/
structure QueueState where
  pending : List QueueJob
  processing : List (String × ProcessingEntry)
  failed : List FailedJob
  delayedPushes : List (Nat × QueueJob)
  deriving Repr, DecidableEq

/-- Embedding of `QueueService.DEFAULT_MAX_ATTEMPTS`. -/
def DEFAULT_MAX_ATTEMPTS : Nat := 3

/-- Embedding of `QueueService.DEFAULT_RETRY_DELAY` (ms). -/
def DEFAULT_RETRY_DELAY : Nat := 5000

/-- Embedding of `QueueService.completeJob`: `HDEL processing-jobs jobId`. -/
def completeJob (qs : QueueState) (jobId : String) : QueueState :=
  { qs with processing := hdel qs.processing jobId }

/-- Embedding of `QueueService.failJob` with the job snapshot passed by the caller (the
worker always passes it): remove from processing, increment attempts;
below `maxAttempts` schedule an `LPUSH` back onto pending after `delay`
ms, otherwise `LPUSH` onto the dead-letter list spread with
`{error, failedAt}`. -/
def failJob (qs : QueueState) (job : QueueJob) (error : String)
    (now : Nat) : QueueState :=
  let qs1 := { qs with processing := hdel qs.processing job.id }
  let attempts' := job.attempts.getD 0 + 1
  let job' := { job with attempts := some attempts' }
  if attempts' < jsOr job.maxAttempts DEFAULT_MAX_ATTEMPTS then
    let d := jsOr job.delay DEFAULT_RETRY_DELAY
    let retryJob := { job' with scheduledFor := some (now + d) }
    { qs1 with delayedPushes := qs1.delayedPushes ++ [(d, retryJob)] }
  else
    { qs1 with failed := { job := job', error := error, failedAt := now } :: qs1.failed }

/-- Embedding of `QueueService.getFailedJobs`: `LRANGE failed-jobs 0 (limit-1)`. -/
def getFailedJobs (qs : QueueState) (limit : Nat) : List FailedJob :=
  qs.failed.take limit

/-- The id scan `QueueService.retryFailedJob` performs over the
dead-letter list (first entry whose `id` matches). -/
def findFailedJobById (qs : QueueState) (jobId : String) : Option FailedJob :=
  qs.failed.find? (fun f => f.job.id = jobId)

/-! Section: Queue worker (`QueueWorkerService`, src/unnamed/part_027)

`handleDocumentUpdateJob` calls `DocumentsService.updateDocument` (null
for not-found / insufficient permissions), caches the result (errors
swallowed inside `cacheDocumentContent`), appends edit history (throws
propagate), and completes the job; `handleJob` catches any throw and
calls `failJob`.  External call outcomes arrive in a `WorkerEnv`. -/

/-- Outcome of `DocumentsService.updateDocument` as the worker sees it. -/
inductive GatewayUpdateResult where
  | ok (content : String) (title : String)
  | nullResult
  | thrown (msg : String)
  deriving Repr, DecidableEq

/-- Outcomes of the worker's external calls for one job. -/
structure WorkerEnv where
  updateResult : GatewayUpdateResult
  historyResult : Except String Unit
  deriving Repr

/-- Embedding of `QueueWorkerService.handleDocumentUpdateJob`: `.ok` means control
reached `completeJob`; `.error` means the function threw. -/
def handleDocumentUpdateJob (env : WorkerEnv) : Except String Unit :=
  match env.updateResult with
  | .thrown msg => .error msg
  | .nullResult =>
      .error "Document update failed - document not found or insufficient permissions"
  | .ok _ _ =>
      match env.historyResult with
      | .error e => .error e
      | .ok _ => .ok ()

/-- What happened to a job after `handleJob` returned. -/
inductive JobOutcome where
  | completed
  | retryScheduled (delayMs : Nat) (job : QueueJob)
  | deadLettered (entry : FailedJob)
  deriving Repr, DecidableEq

/-- Embedding of `QueueWorkerService.handleJob` for one dequeued job: dispatch on the
type, catch any throw and `failJob` it; on success `completeJob`. The
`JobOutcome` classifies the queue effect of the branch taken. -/
def handleJob (env : WorkerEnv) (job : QueueJob) (now : Nat)
    (qs : QueueState) : QueueState × JobOutcome :=
  let failWith := fun (e : String) =>
    let attempts' := job.attempts.getD 0 + 1
    (failJob qs job e now,
     if attempts' < jsOr job.maxAttempts DEFAULT_MAX_ATTEMPTS then
       JobOutcome.retryScheduled (jsOr job.delay DEFAULT_RETRY_DELAY)
         { job with
            attempts := some attempts',
            scheduledFor := some (now + jsOr job.delay DEFAULT_RETRY_DELAY) }
     else
       JobOutcome.deadLettered
         ⟨{ job with attempts := some attempts' }, e, now⟩)
  if job.type = "document-update" then
    match handleDocumentUpdateJob env with
    | .ok _ => (completeJob qs job.id, .completed)
    | .error e => failWith e
  else
    failWith ("Unknown job type: " ++ job.type)

/-! Section: Realtime gateway fan-out (`WebSocketService`, websocket.service.ts)

`broadcastToDocument` publishes `{type, data}` on `channel:{documentId}`
— the envelope carries no originating socket id — and then walks the
presence sessions, skipping sessions whose `userId` equals the
`excludeUserId` argument and sending to the local socket found under the
session's `socketId`.  Every instance subscribed to the channel
(including the publishing one) runs `handlePubSubMessage`, which relays
to every local open socket whose current document matches, with no
originator suppression.  A delivery is recorded as the receiving
socket's id. -/

/-- A connected authenticated socket (`AuthenticatedWebSocket`). -/
structure Sock where
  socketId : String
  userId : String
  username : String
  documentId : Option String
  deriving Repr, DecidableEq

/-- One gateway process: its `socketConnections` map and the channels its
subscriber client is subscribed to. -/
structure GatewayInstance where
  sockets : List Sock
  subscriptions : List String
  deriving Repr, DecidableEq

/-- Embedding of `channel:{documentId}`. -/
def channelOf (documentId : String) : String := "channel:" ++ documentId

/-- Embedding of `WebSocketService.handlePubSubMessage`: relay the envelope to every
local socket whose `documentId` matches the channel's document. -/
def handlePubSubMessage (g : GatewayInstance) (documentId : String) :
    List String :=
  (g.sockets.filter (fun s => s.documentId = some documentId)).map (·.socketId)

/-- Embedding of `RedisPubSubService.publish` on `channel:{documentId}`: every
instance subscribed to the channel runs its pub/sub handler. -/
def publishDeliveries (cluster : List GatewayInstance) (documentId : String) :
    List String :=
  (cluster.filter (fun g => g.subscriptions.contains (channelOf documentId))).flatMap
    (fun g => handlePubSubMessage g documentId)

/-- Embedding of `WebSocketService.broadcastToDocument` running on instance `g0`:
publish on the channel, then fan out directly to the sockets of presence
sessions whose `userId` differs from `excludeUserId`. -/
def broadcastToDocument (cluster : List GatewayInstance)
    (g0 : GatewayInstance) (sessions : List ActiveSession)
    (documentId : String) (excludeUserId : Option String) : List String :=
  publishDeliveries cluster documentId ++
    (sessions.filter (fun sess => ¬ excludeUserId = some sess.userId)).filterMap
      (fun sess =>
        if g0.sockets.any (fun s => s.socketId = sess.socketId) then
          some sess.socketId
        else none)

/-- Embedding of `WebSocketService.handleYjsUpdate`: broadcast with
`excludeUserId = ws.userId`. -/
def handleYjsUpdate (cluster : List GatewayInstance) (g0 : GatewayInstance)
    (sessions : List ActiveSession) (ws : Sock) (documentId : String) :
    List String :=
  broadcastToDocument cluster g0 sessions documentId (some ws.userId)

/-! Section: Document update endpoint (`DocumentsController.updateDocument`,
documents.controller.ts, and `DocumentsService.updateDocument`,
src/unnamed/part_016)

`PUT /documents/:id` checks edit permission, applies the update through
the database synchronously and responds with the updated document or a
404.  The queue passes through so enqueueing (or its absence) is
observable; the constructors `okSkipped` / `okQueued` are the response
shapes claim C2 predicts and exist only to state that claim. -/

/-- A document row with its `documentUsers` pivot (userId ↦ role). -/
structure DocumentRec where
  id : String
  title : String
  content : String
  ownerId : String
  documentUsers : List (String × String)
  deriving Repr, DecidableEq

/-- The documents table. -/
abbrev DocumentDB := List DocumentRec

/-- Embedding of `DocumentsService.checkUserPermission`: document must exist; direct
owner passes when `owner` is among the required roles; otherwise the
pivot row's role must be among the required roles. -/
def checkUserPermission (db : DocumentDB) (documentId userId : String)
    (requiredRoles : List String) : Bool :=
  match db.find? (fun d => d.id = documentId) with
  | none => false
  | some document =>
      if document.ownerId = userId && requiredRoles.contains "owner" then
        true
      else
        match document.documentUsers.find? (fun du => du.1 = userId) with
        | none => false
        | some du => requiredRoles.contains du.2

/-- Outcome of `DocumentsService.updateDocument`. -/
inductive ServiceUpdateResult where
  | updated (doc : DocumentRec) (db : DocumentDB)
  | denied
  | updateThrew
  deriving Repr

/-- Embedding of `DocumentsService.updateDocument`: permission check (owner or
editor), then `prisma.document.update` with the provided fields; `null`
when permission fails; a throw (unreachable: permission implies
existence) when the row vanished. -/
def serviceUpdateDocument (db : DocumentDB) (documentId userId : String)
    (title content : Option String) : ServiceUpdateResult :=
  if checkUserPermission db documentId userId ["owner", "editor"] then
    match db.find? (fun d => d.id = documentId) with
    | none => .updateThrew
    | some d =>
        let d' := { d with
          title := title.getD d.title, content := content.getD d.content }
        .updated d' (db.map (fun e => if e.id = documentId then d' else e))
  else
    .denied

/-- HTTP responses of the update endpoint.  `okSkipped`/`okQueued` are
the shapes predicted by the spec's Update Intake and are never produced
by the code. -/
inductive UpdateHttpResponse where
  | okDocument (doc : DocumentRec) (message : String)
  | okSkipped (jobId : Option String) (status : String) (reason : String)
  | okQueued (jobId : String) (status : String)
  | notFound (message : String)
  | internalError (message : String)
  deriving Repr, DecidableEq

/-- Embedding of `DocumentsController.updateDocument` with the persistence queue made
explicit: the handler never touches it. -/
def updateDocumentEndpoint (db : DocumentDB) (queue : List QueueJob)
    (userId documentId : String) (title content : Option String) :
    UpdateHttpResponse × DocumentDB × List QueueJob :=
  match serviceUpdateDocument db documentId userId title content with
  | .denied =>
      (.notFound "Document not found or insufficient permissions", db, queue)
  | .updateThrew => (.internalError "Failed to update document", db, queue)
  | .updated doc db' =>
      (.okDocument doc "Document updated successfully", db', queue)

/-! Section: Job id generation (`QueueService.generateJobId`, queue.service.ts,
and the retry route's validation, queue.routes.ts)

`` `job_${Date.now()}_${Math.random().toString(36).substr(2, 9)}` ``
against `/^job_\d+_[a-z0-9]+$/`.  `Math.random()` is modeled by the
base-36 fractional expansion of its value: `toString(36)` renders `0`
for zero and `0.` followed by the digits otherwise. -/

/-- A base-36 digit as the character JavaScript renders. -/
def base36Char (d : Nat) : Char :=
  if d < 10 then Char.ofNat (48 + d) else Char.ofNat (87 + d)

/-- Decimal digits of a natural number (fuel-structured so it computes
by evaluation; fuel `n+1` always suffices). -/
def natDecDigitsCore : Nat → Nat → List Char → List Char
  | 0, _, acc => acc
  | fuel + 1, n, acc =>
      let d := base36Char (n % 10)
      if n < 10 then d :: acc else natDecDigitsCore fuel (n / 10) (d :: acc)

/-- Embedding of `${Date.now()}`: the decimal rendering of the timestamp. -/
def natDecDigits (n : Nat) : List Char := natDecDigitsCore (n + 1) n []

/-- Embedding of `Math.random().toString(36)` for a value given by its base-36
fractional digits: `"0"` when the value is zero, else `"0." ++ digits`. -/
def randomToString36 (digits : List (Fin 36)) : List Char :=
  if digits.isEmpty then ['0']
  else '0' :: '.' :: digits.map (fun d => base36Char d.val)

/-- Embedding of `QueueService.generateJobId` for a given clock value and random
fractional expansion: `.substr(2, 9)` is drop 2, take 9. -/
def generateJobId (nowMs : Nat) (digits : List (Fin 36)) : String :=
  "job_" ++ String.mk (natDecDigits nowMs) ++ "_" ++
    String.mk (((randomToString36 digits).drop 2).take 9)

/-- Character class `\d`. -/
def isDigitCh (c : Char) : Bool := 48 ≤ c.toNat && c.toNat ≤ 57

/-- Character class `[a-z0-9]`. -/
def isLowerAlnumCh (c : Char) : Bool :=
  isDigitCh c || (97 ≤ c.toNat && c.toNat ≤ 122)

/-- The retry route's parameter validation `/^job_\d+_[a-z0-9]+$/`
(`z.string().regex(...)` in queue.routes.ts).  The regex is
deterministic: `\d+` must run up to the single `'_'` separator. -/
def jobIdPatternTest (s : String) : Bool :=
  match s.data with
  | 'j' :: 'o' :: 'b' :: '_' :: rest =>
      let ds := rest.takeWhile isDigitCh
      let tl := rest.dropWhile isDigitCh
      decide (ds ≠ []) &&
        (match tl with
         | '_' :: sfx => decide (sfx ≠ []) && sfx.all isLowerAlnumCh
         | _ => false)
  | _ => false

/-! Part 2: theorems. -/

/-! Section: Hash-primitive lemmas -/

theorem hset_length_of_mem (l : List (String × α)) (k : String) (v : α)
    (h : l.any (fun p => p.1 = k)) : (hset l k v).length = l.length := by
  simp [hset, h]

theorem keys_hset_nodup (l : List (String × α)) (k : String) (v : α)
    (h : (l.map Prod.fst).Nodup) : ((hset l k v).map Prod.fst).Nodup := by
  by_cases hmem : l.any (fun p => p.1 = k)
  · have hmap : (hset l k v).map Prod.fst = l.map Prod.fst := by
      simp only [hset, hmem, if_true, List.map_map]
      apply List.map_congr_left
      intro p _
      by_cases hp : p.1 = k <;> simp [hp]
    rw [hmap]; exact h
  · have hforall : ∀ p ∈ l, p.1 ≠ k := by
      intro p hp hpk
      exact hmem (List.any_eq_true.mpr ⟨p, hp, by simpa using hpk⟩)
    have hknotin : k ∉ l.map Prod.fst := by
      intro hk
      rcases List.mem_map.mp hk with ⟨p, hpmem, hpk⟩
      exact hforall p hpmem hpk
    simp only [hset, hmem, if_false, List.map_cons]
    exact List.Nodup.cons hknotin h

theorem keys_filter_nodup (l : List (String × α)) (p : String × α → Bool)
    (h : (l.map Prod.fst).Nodup) : ((l.filter p).map Prod.fst).Nodup :=
  List.Nodup.sublist (List.Sublist.map Prod.fst (List.filter_sublist l)) h

theorem keys_hdel_nodup (l : List (String × α)) (k : String)
    (h : (l.map Prod.fst).Nodup) : ((hdel l k).map Prod.fst).Nodup :=
  keys_filter_nodup l _ h

theorem find_hset_self (l : List (String × α)) (k : String) (v : α)
    (h : l.any (fun p => p.1 = k)) :
    ((l.map (fun p => if p.1 = k then (k, v) else p)).find?
      (fun p => p.1 = k)) = some (k, v) := by
  induction l with
  | nil => simp at h
  | cons p rest ih =>
      by_cases hp : p.1 = k
      · simp [List.find?_cons, hp]
      · have h' : rest.any (fun q => q.1 = k) := by
          rcases List.any_eq_true.mp h with ⟨q, hq, hqk⟩
          rcases List.mem_cons.mp hq with rfl | hq'
          · exact absurd (by simpa using hqk) hp
          · exact List.any_eq_true.mpr ⟨q, hq', hqk⟩
        simpa [List.find?_cons, hp] using ih h'

theorem hget_hset_self (l : List (String × α)) (k : String) (v : α) :
    hget (hset l k v) k = some v := by
  unfold hset hget
  by_cases hmem : l.any (fun p => p.1 = k)
  · rw [if_pos hmem, find_hset_self l k v hmem]
    rfl
  · rw [if_neg hmem]
    simp [List.find?_cons]

theorem hget_hdel_self (l : List (String × α)) (k : String) :
    hget (hdel l k) k = none := by
  unfold hdel hget
  have hfind : (l.filter (fun p => p.1 ≠ k)).find? (fun p => p.1 = k) = none := by
    rw [List.find?_eq_none]
    intro p hp
    have hne := List.of_mem_filter hp
    simpa using hne
  rw [hfind]
  rfl

/-! Section: C5: presence-map invariant and supersede -/

theorem applySessionOp_keys_nodup (h : SessionHash) (op : SessionOp)
    (hnd : (h.map Prod.fst).Nodup) :
    ((applySessionOp h op).map Prod.fst).Nodup := by
  cases op with
  | add u un sid cur now => exact keys_hset_nodup h u _ hnd
  | remove u => exact keys_hdel_nodup h u hnd
  | touch u now =>
      show ((updateLastActive h u now).map Prod.fst).Nodup
      unfold updateLastActive
      cases hget h u with
      | none => exact hnd
      | some s => exact keys_hset_nodup h u _ hnd
  | sweep now => exact keys_filter_nodup h _ hnd

theorem foldl_sessionOps_keys_nodup (ops : List SessionOp) (h : SessionHash)
    (hnd : (h.map Prod.fst).Nodup) :
    ((ops.foldl applySessionOp h).map Prod.fst).Nodup := by
  induction ops generalizing h with
  | nil => exact hnd
  | cons op rest ih =>
      exact ih (applySessionOp h op) (applySessionOp_keys_nodup h op hnd)

theorem any_of_mem_keys (h : SessionHash) (u : String)
    (hm : u ∈ h.map Prod.fst) : h.any (fun p => p.1 = u) := by
  rcases List.mem_map.mp hm with ⟨p, hpmem, hpu⟩
  exact List.any_eq_true.mpr ⟨p, hpmem, by simpa using hpu⟩

/-- Claim C5: Invariant of the Presence Map: starting from the empty hash,
after any sequence of `addSession` / `removeSession` / `updateLastActive` /
`cleanupStaleSessions` operations the hash holds at most one field per
`userId` (its field keys are pairwise distinct); and a second
`addSession` by a principal already present overwrites that principal's
field in place — the stored record carries the new `socketId` and
`getDocumentSessionCount` does not grow. -/
theorem presence_invariant_and_supersede (ops : List SessionOp)
    (u un sid : String) (cur : Option String) (now : Nat)
    (hdup : u ∈ (runSessionOps ops).map Prod.fst) :
    ((runSessionOps ops).map Prod.fst).Nodup ∧
    getDocumentSessionCount (addSession (runSessionOps ops) u un sid cur now) =
      getDocumentSessionCount (runSessionOps ops) ∧
    hget (addSession (runSessionOps ops) u un sid cur now) u =
      some { userId := u, username := un, socketId := sid,
             cursorPosition := cur, lastActive := now } := by
  set h := runSessionOps ops with hh
  have hnd : (h.map Prod.fst).Nodup :=
    foldl_sessionOps_keys_nodup ops [] (by simp)
  have hany : h.any (fun p => p.1 = u) := any_of_mem_keys h u hdup
  refine ⟨hnd, ?_, ?_⟩
  · unfold getDocumentSessionCount addSession
    exact hset_length_of_mem h u _ hany
  · exact hget_hset_self h u _

/-- Witness for `presence_invariant_and_supersede` at a concrete run:
principal `p` joins `D3` on socket `s1` and then again on socket `s2`. -/
theorem presence_invariant_and_supersede_witness :
    "p" ∈ (runSessionOps [.add "p" "alice" "s1" none 5]).map Prod.fst ∧
    ((runSessionOps [.add "p" "alice" "s1" none 5]).map Prod.fst).Nodup ∧
    getDocumentSessionCount
      (addSession (runSessionOps [.add "p" "alice" "s1" none 5])
        "p" "alice" "s2" none 9) =
      getDocumentSessionCount (runSessionOps [.add "p" "alice" "s1" none 5]) ∧
    hget (addSession (runSessionOps [.add "p" "alice" "s1" none 5])
        "p" "alice" "s2" none 9) "p" =
      some { userId := "p", username := "alice", socketId := "s2",
             cursorPosition := none, lastActive := 9 } :=
  ⟨by decide,
   presence_invariant_and_supersede [.add "p" "alice" "s1" none 5]
     "p" "alice" "s2" none 9 (by decide)⟩

/-! Section: C9: removeSession deletes the field and an emptied hash -/

/-- Claim C9: `removeSession(documentId, principalId)` deletes the
principal's field from the document's session hash, and whenever that
deletion leaves the hash without fields the hash key itself is gone from
the cache store (`HDEL` of a hash's last field removes the key). -/
theorem removeSession_deletes_field (st : HashStore) (D p : String) :
    storeFieldGet (removeSession st D p) (sessionKey D) p = none ∧
    (∀ h, hget st (sessionKey D) = some h → hdel h p = [] →
      hget (removeSession st D p) (sessionKey D) = none) := by
  constructor
  · unfold removeSession storeHdel storeFieldGet
    cases hkey : hget st (sessionKey D) with
    | none => rw [hkey]; rfl
    | some h =>
        show ((hget (if (hdel h p).isEmpty then
            st.filter (fun q => q.1 ≠ sessionKey D)
          else hset st (sessionKey D) (hdel h p)) (sessionKey D)).bind
          (fun h => hget h p)) = none
        by_cases hemp : (hdel h p).isEmpty
        · rw [if_pos hemp]
          have hg : hget (hdel st (sessionKey D)) (sessionKey D) = none :=
            hget_hdel_self st (sessionKey D)
          unfold hdel at hg
          rw [hg]
          rfl
        · rw [if_neg hemp]
          rw [hget_hset_self]
          simp [hget_hdel_self]
  · intro h hkey hempty
    unfold removeSession storeHdel
    rw [hkey]
    simp only [hempty, List.isEmpty_nil, if_true]
    have hg : hget (hdel st (sessionKey D)) (sessionKey D) = none :=
      hget_hdel_self st (sessionKey D)
    unfold hdel at hg
    exact hg

/-- Witness for `removeSession_deletes_field`: a store whose only session
for document `D` is principal `p`; removing it leaves neither the field
nor the hash. -/
theorem removeSession_deletes_field_witness :
    storeFieldGet
      (removeSession
        [(sessionKey "D",
          [("p", { userId := "p", username := "alice", socketId := "s1",
                   cursorPosition := none, lastActive := 5 })])] "D" "p")
      (sessionKey "D") "p" = none ∧
    hget
      (removeSession
        [(sessionKey "D",
          [("p", { userId := "p", username := "alice", socketId := "s1",
                   cursorPosition := none, lastActive := 5 })])] "D" "p")
      (sessionKey "D") = none :=
  ⟨(removeSession_deletes_field _ "D" "p").1,
   (removeSession_deletes_field
      [(sessionKey "D",
        [("p", { userId := "p", username := "alice", socketId := "s1",
                 cursorPosition := none, lastActive := 5 })])] "D" "p").2
     [("p", { userId := "p", username := "alice", socketId := "s1",
              cursorPosition := none, lastActive := 5 })]
     (by decide) (by decide)⟩

/-! Section: C8: hasChanged semantics -/

/-- Claim C8: The code's `hasDocumentContentChanged` computes exactly the
spec's change predicate: `true` when no snapshot is cached or the cache
errored, else `newBody ≠ cachedBody` or (`newTitle` provided and
different from the cached title). -/
theorem hasDocumentContentChanged_correct (fetch : CacheFetch)
    (newContent : String) (newTitle : Option String) :
    (hasDocumentContentChanged fetch newContent newTitle).hasChanged =
      hasChangedSpec fetch newContent newTitle := by
  cases fetch with
  | err => rfl
  | miss => rfl
  | hit c =>
      simp only [hasDocumentContentChanged, getCachedDocumentContent,
        hasChangedSpec]
      congr 1
      · exact decide_eq_decide.mpr ne_comm
      · congr 1
        exact decide_eq_decide.mpr ne_comm

/-! Section: C7: failJob retry and dead-letter behavior -/

/-- Claim C7: `failJob` removes the job from the processing set and
increments `attempts`; while the incremented count is below
`maxAttempts` (default 3) an `LPUSH` back onto pending is scheduled after
`delay` ms (the job's backoff, default 5000) with `scheduledFor = now +
delay`; otherwise the job, spread with `{error, failedAt}`, is pushed
onto the head of the dead-letter list, where the id scan used by the
retry endpoint finds it and `getFailedJobs` returns it. -/
theorem failJob_retry_or_dlq (qs : QueueState) (job : QueueJob)
    (error : String) (now : Nat) :
    hget (failJob qs job error now).processing job.id = none ∧
    (if job.attempts.getD 0 + 1 < jsOr job.maxAttempts DEFAULT_MAX_ATTEMPTS then
      (failJob qs job error now).delayedPushes =
        qs.delayedPushes ++
          [(jsOr job.delay DEFAULT_RETRY_DELAY,
            { job with
               attempts := some (job.attempts.getD 0 + 1),
               scheduledFor := some (now + jsOr job.delay DEFAULT_RETRY_DELAY) })] ∧
      (failJob qs job error now).failed = qs.failed
    else
      (failJob qs job error now).failed =
        ⟨{ job with attempts := some (job.attempts.getD 0 + 1) }, error, now⟩ ::
          qs.failed ∧
      findFailedJobById (failJob qs job error now) job.id =
        some ⟨{ job with attempts := some (job.attempts.getD 0 + 1) }, error, now⟩ ∧
      ⟨{ job with attempts := some (job.attempts.getD 0 + 1) }, error, now⟩ ∈
        getFailedJobs (failJob qs job error now) 10) := by
  constructor
  · unfold failJob
    by_cases hlt : job.attempts.getD 0 + 1 < jsOr job.maxAttempts DEFAULT_MAX_ATTEMPTS
    · rw [if_pos hlt]
      exact hget_hdel_self qs.processing job.id
    · rw [if_neg hlt]
      exact hget_hdel_self qs.processing job.id
  · by_cases hlt : job.attempts.getD 0 + 1 < jsOr job.maxAttempts DEFAULT_MAX_ATTEMPTS
    · rw [if_pos hlt]
      unfold failJob
      rw [if_pos hlt]
      exact ⟨rfl, rfl⟩
    · rw [if_neg hlt]
      unfold failJob
      rw [if_neg hlt]
      refine ⟨rfl, ?_, ?_⟩
      · unfold findFailedJobById
        rw [List.find?_cons]
        simp
      · unfold getFailedJobs
        rw [List.take_cons (by decide : (0:Nat) < 10)]
        exact List.mem_cons_self _ _

/-! Section: C3 / C4: worker failure handling -/

/-- A fresh `document-update` job as `addDocumentUpdateJob` creates it. -/
def sampleJob : QueueJob :=
  { id := "job_1_abc", type := "document-update", documentId := "d1",
    userId := "u1", updTitle := none, updContent := some "x",
    priority := some 1, attempts := some 0, maxAttempts := some 3,
    delay := some 5000, createdAt := 0, scheduledFor := none }

/-- The empty queue state. -/
def qsEmpty : QueueState :=
  { pending := [], processing := [], failed := [], delayedPushes := [] }

/-- The message `handleDocumentUpdateJob` throws when the gateway returns
null. -/
def notFoundMsg : String :=
  "Document update failed - document not found or insufficient permissions"

/-- Claim C3 counterexample: A `document-update` job whose gateway write
reports not-found / permission-denied, with `attempts = 0` of
`maxAttempts = 3`: the dead-letter list stays empty and a retry is
scheduled instead — the job is not added to the DLQ immediately. -/
theorem notFound_goes_to_retry_not_dlq :
    (handleJob ⟨.nullResult, .ok ()⟩ sampleJob 1000 qsEmpty).1.failed = [] ∧
    (handleJob ⟨.nullResult, .ok ()⟩ sampleJob 1000 qsEmpty).2 =
      .retryScheduled 5000
        { sampleJob with attempts := some 1, scheduledFor := some 6000 } := by
  constructor
  · rfl
  · rfl

/-- Claim C3 amended: When the gateway reports not-found or
permission-denied, the worker throws and the job goes through the
generic `failJob` path: while the incremented attempt count is below
`maxAttempts` it is rescheduled for retry after the backoff, and only
otherwise is it dead-lettered. -/
theorem notFound_failure_is_retried (env : WorkerEnv) (job : QueueJob)
    (now : Nat) (qs : QueueState)
    (hty : job.type = "document-update")
    (hup : env.updateResult = .nullResult) :
    handleJob env job now qs =
      (failJob qs job notFoundMsg now,
       if job.attempts.getD 0 + 1 < jsOr job.maxAttempts DEFAULT_MAX_ATTEMPTS then
         .retryScheduled (jsOr job.delay DEFAULT_RETRY_DELAY)
           { job with
              attempts := some (job.attempts.getD 0 + 1),
              scheduledFor := some (now + jsOr job.delay DEFAULT_RETRY_DELAY) }
       else
         .deadLettered
           ⟨{ job with attempts := some (job.attempts.getD 0 + 1) },
            notFoundMsg, now⟩) := by
  unfold handleJob handleDocumentUpdateJob
  rw [hup, if_pos hty]
  rfl

/-- Witness for `notFound_failure_is_retried` at the concrete job. -/
theorem notFound_failure_is_retried_witness :
    sampleJob.type = "document-update" ∧
    (WorkerEnv.mk .nullResult (.ok ())).updateResult = .nullResult ∧
    handleJob ⟨.nullResult, .ok ()⟩ sampleJob 1000 qsEmpty =
      (failJob qsEmpty sampleJob notFoundMsg 1000,
       if sampleJob.attempts.getD 0 + 1 <
           jsOr sampleJob.maxAttempts DEFAULT_MAX_ATTEMPTS then
         .retryScheduled (jsOr sampleJob.delay DEFAULT_RETRY_DELAY)
           { sampleJob with
              attempts := some (sampleJob.attempts.getD 0 + 1),
              scheduledFor :=
                some (1000 + jsOr sampleJob.delay DEFAULT_RETRY_DELAY) }
       else
         .deadLettered
           ⟨{ sampleJob with attempts := some (sampleJob.attempts.getD 0 + 1) },
            notFoundMsg, 1000⟩) :=
  ⟨by decide, rfl,
   notFound_failure_is_retried ⟨.nullResult, .ok ()⟩ sampleJob 1000 qsEmpty
     (by decide) rfl⟩

/-- Claim C4 counterexample: A `document-update` job whose document write
succeeds but whose edit-history append throws: the job is not marked
complete — a retry is scheduled instead of completion. -/
theorem history_failure_not_swallowed :
    (handleJob ⟨.ok "body" "T", .error "history db down"⟩ sampleJob 1000
        qsEmpty).2 =
      .retryScheduled 5000
        { sampleJob with attempts := some 1, scheduledFor := some 6000 } ∧
    (handleJob ⟨.ok "body" "T", .error "history db down"⟩ sampleJob 1000
        qsEmpty).2 ≠ .completed := by
  constructor
  · rfl
  · decide

/-- Claim C4 amended: After a successful document write, a failure of the
edit-history append propagates out of `handleDocumentUpdateJob`: the job
is not completed but failed via `failJob` — rescheduled for retry below
`maxAttempts` and dead-lettered otherwise. -/
theorem history_failure_fails_job (env : WorkerEnv) (job : QueueJob)
    (now : Nat) (qs : QueueState) (c t e : String)
    (hty : job.type = "document-update")
    (hup : env.updateResult = .ok c t)
    (hh : env.historyResult = .error e) :
    handleJob env job now qs =
      (failJob qs job e now,
       if job.attempts.getD 0 + 1 < jsOr job.maxAttempts DEFAULT_MAX_ATTEMPTS then
         .retryScheduled (jsOr job.delay DEFAULT_RETRY_DELAY)
           { job with
              attempts := some (job.attempts.getD 0 + 1),
              scheduledFor := some (now + jsOr job.delay DEFAULT_RETRY_DELAY) }
       else
         .deadLettered
           ⟨{ job with attempts := some (job.attempts.getD 0 + 1) }, e, now⟩) := by
  unfold handleJob handleDocumentUpdateJob
  rw [hup, hh, if_pos hty]

/-- Witness for `history_failure_fails_job` at the concrete job. -/
theorem history_failure_fails_job_witness :
    sampleJob.type = "document-update" ∧
    handleJob ⟨.ok "body" "T", .error "history db down"⟩ sampleJob 1000
        qsEmpty =
      (failJob qsEmpty sampleJob "history db down" 1000,
       if sampleJob.attempts.getD 0 + 1 <
           jsOr sampleJob.maxAttempts DEFAULT_MAX_ATTEMPTS then
         .retryScheduled (jsOr sampleJob.delay DEFAULT_RETRY_DELAY)
           { sampleJob with
              attempts := some (sampleJob.attempts.getD 0 + 1),
              scheduledFor :=
                some (1000 + jsOr sampleJob.delay DEFAULT_RETRY_DELAY) }
       else
         .deadLettered
           ⟨{ sampleJob with attempts := some (sampleJob.attempts.getD 0 + 1) },
            "history db down", 1000⟩) :=
  ⟨by decide,
   history_failure_fails_job ⟨.ok "body" "T", .error "history db down"⟩
     sampleJob 1000 qsEmpty "body" "T" "history db down" (by decide) rfl rfl⟩

/-! Section: C1: fan-out deliveries -/

theorem count_map_eq_length_filter (f : α → String) (l : List α) (a : String) :
    (l.map f).count a = (l.filter (fun x => f x = a)).length := by
  induction l with
  | nil => rfl
  | cons y t ih =>
      by_cases hy : f y = a
      · simp [List.count_cons, List.filter_cons, hy, ih]
      · simp [List.count_cons, List.filter_cons, hy, ih]

theorem filterMap_if_eq_map_filter (p : α → Bool) (f : α → β) (l : List α) :
    l.filterMap (fun x => if p x then some (f x) else none) =
      (l.filter p).map f := by
  induction l with
  | nil => rfl
  | cons y t ih =>
      by_cases hy : p y
      · simp [List.filterMap_cons, List.filter_cons, hy, ih]
      · simp [List.filterMap_cons, List.filter_cons, hy, ih]

theorem map_filter_nodup (f : α → β) (l : List α) (p : α → Bool)
    (h : (l.map f).Nodup) : ((l.filter p).map f).Nodup :=
  List.Nodup.sublist (List.Sublist.map f (List.filter_sublist l)) h

theorem filter_sid_singleton (l : List Sock) (x : Sock)
    (hnd : (l.map Sock.socketId).Nodup) (hx : x ∈ l) :
    l.filter (fun s => s.socketId = x.socketId) = [x] := by
  induction l with
  | nil => cases hx
  | cons y t ih =>
      rw [List.map_cons, List.nodup_cons] at hnd
      obtain ⟨hy_notin, hnd_t⟩ := hnd
      by_cases hsid : y.socketId = x.socketId
      · have htempty : t.filter (fun s => s.socketId = x.socketId) = [] := by
          rw [List.filter_eq_nil_iff]
          intro s hs hssid
          apply hy_notin
          rw [hsid, ← (by simpa using hssid : s.socketId = x.socketId)]
          exact List.mem_map_of_mem Sock.socketId hs
        have hxy : y = x := by
          rcases List.mem_cons.mp hx with hxx | hxt
          · exact hxx.symm
          · exact absurd (hsid ▸ List.mem_map_of_mem Sock.socketId hxt)
              hy_notin
        simp [List.filter_cons, hsid, htempty, hxy]
      · have hx_t : x ∈ t := by
          rcases List.mem_cons.mp hx with hxx | hxt
          · exact absurd (hxx ▸ rfl) hsid
          · exact hxt
        simp [List.filter_cons, hsid, ih hnd_t hx_t]

theorem filter_present_sid (l : List ActiveSession) (g : GatewayInstance)
    (a : String) (hpresent : g.sockets.any (fun s => s.socketId = a)) :
    (l.filter (fun sess =>
        g.sockets.any (fun s => s.socketId = sess.socketId))).filter
      (fun sess => sess.socketId = a) =
    l.filter (fun sess => sess.socketId = a) := by
  induction l with
  | nil => rfl
  | cons y t ih =>
      rw [List.filter_cons]
      by_cases hp : g.sockets.any (fun s => s.socketId = y.socketId)
      · rw [if_pos hp, List.filter_cons]
        by_cases hy : y.socketId = a
        · rw [if_pos (by simpa using hy), ih, List.filter_cons,
            if_pos (by simpa using hy)]
        · rw [if_neg (by simpa using hy), ih, List.filter_cons,
            if_neg (by simpa using hy)]
      · by_cases hy : y.socketId = a
        · exact absurd
            (show g.sockets.any (fun s => s.socketId = y.socketId) = true by
              rw [hy]; exact hpresent) hp
        · rw [if_neg hp, ih, List.filter_cons, if_neg (by simpa using hy)]

/-- The instance and presence state of scenario S1: one gateway process
subscribed to `channel:D1`, sockets `s` (principal A) and `t`
(principal B) both joined to `D1`, presence sessions matching. -/
def gwA : GatewayInstance :=
  { sockets :=
      [{ socketId := "s", userId := "A", username := "alice",
         documentId := some "D1" },
       { socketId := "t", userId := "B", username := "bob",
         documentId := some "D1" }],
    subscriptions := [channelOf "D1"] }

/-- Presence sessions of `D1` in `gwA`'s cluster. -/
def sessAB : List ActiveSession :=
  [{ userId := "A", username := "alice", socketId := "s",
     cursorPosition := none, lastActive := 0 },
   { userId := "B", username := "bob", socketId := "t",
     cursorPosition := none, lastActive := 0 }]

/-- The socket `s` of principal A in `gwA`. -/
def sockS : Sock :=
  { socketId := "s", userId := "A", username := "alice",
    documentId := some "D1" }

/-- Claim C1 counterexample: Socket `s` of principal A sends a
`yjs-update` for `D1` on an instance also holding socket `t` of
principal B: the published envelope carries no socket id, the pub/sub
relay sends the frame back to `s` (1 delivery, the claim requires 0),
and `t` receives it twice — once from the relay and once from the direct
per-session fan-out (the claim requires exactly once). -/
theorem fanout_self_echo :
    (handleYjsUpdate [gwA] gwA sessAB sockS "D1").count "s" = 1 ∧
    (handleYjsUpdate [gwA] gwA sessAB sockS "D1").count "t" = 2 := by
  constructor
  · rfl
  · rfl

/-- Claim C1 amended: On an instance subscribed to the document's channel,
a broadcast from `sender` delivers to each local socket `x` joined to
`D` exactly `1 + k` copies: one from the pub/sub relay — which performs
no originator suppression, so the originator itself receives its own
frame — and `k` from the direct fan-out, where `k` counts the presence
sessions carrying `x`'s socketId whose `userId` differs from the
sender's (suppression is keyed by `userId`; no socketId travels in the
envelope). -/
theorem broadcast_delivery_counts (g : GatewayInstance)
    (sessions : List ActiveSession) (D : String) (sender x : Sock)
    (hsub : g.subscriptions.contains (channelOf D))
    (hnd : (g.sockets.map Sock.socketId).Nodup)
    (hx : x ∈ g.sockets) (hxdoc : x.documentId = some D) :
    (handleYjsUpdate [g] g sessions sender D).count x.socketId =
      1 + (sessions.filter (fun sess =>
            sess.socketId = x.socketId ∧ sess.userId ≠ sender.userId)).length := by
  unfold handleYjsUpdate broadcastToDocument
  rw [List.count_append]
  congr 1
  · -- relay part: exactly one local socket has x's socketId and is joined
    unfold publishDeliveries handlePubSubMessage
    have hcl : [g].filter
        (fun g' => g'.subscriptions.contains (channelOf D)) = [g] := by
      rw [List.filter_cons, if_pos hsub]
      rfl
    rw [hcl]
    simp only [List.flatMap_cons, List.flatMap_nil, List.append_nil]
    rw [count_map_eq_length_filter]
    have hxj : x ∈ g.sockets.filter (fun s => s.documentId = some D) :=
      List.mem_filter.mpr ⟨hx, by simp [hxdoc]⟩
    rw [filter_sid_singleton (g.sockets.filter (fun s => s.documentId = some D))
      x (map_filter_nodup Sock.socketId g.sockets _ hnd) hxj]
    rfl
  · -- direct part
    rw [filterMap_if_eq_map_filter, count_map_eq_length_filter]
    have hpres : g.sockets.any (fun s => s.socketId = x.socketId) :=
      List.any_eq_true.mpr ⟨x, hx, by simp⟩
    rw [filter_present_sid _ g x.socketId hpres]
    rw [List.filter_filter]
    have hpred : ∀ sess ∈ sessions,
        (decide (sess.socketId = x.socketId) &&
          decide (¬ (some sender.userId : Option String) = some sess.userId)) =
        decide (sess.socketId = x.socketId ∧ sess.userId ≠ sender.userId) := by
      intro sess _
      by_cases h1 : sess.socketId = x.socketId
      · by_cases h2 : sess.userId = sender.userId
        · simp [h1, h2]
        · simp [h1, h2, Ne.symm h2]
      · by_cases h2 : sess.userId = sender.userId
        · simp [h1, h2]
        · simp [h1, h2]
    rw [List.filter_congr hpred]

/-- Witness for `broadcast_delivery_counts` at the S1 state: the
originator `s` itself receives exactly one copy. -/
theorem broadcast_delivery_counts_witness :
    gwA.subscriptions.contains (channelOf "D1") = true ∧
    (gwA.sockets.map Sock.socketId).Nodup ∧
    sockS ∈ gwA.sockets ∧
    sockS.documentId = some "D1" ∧
    (handleYjsUpdate [gwA] gwA sessAB sockS "D1").count sockS.socketId =
      1 + (sessAB.filter (fun sess =>
            sess.socketId = sockS.socketId ∧
              sess.userId ≠ sockS.userId)).length :=
  ⟨by decide, by decide, by decide, by decide,
   broadcast_delivery_counts gwA sessAB "D1" sockS sockS (by decide)
     (by decide) (by decide) (by decide)⟩

/-! Section: C2: the update endpoint is synchronous -/

/-- A document owned by `u1` with body `"hello"`. -/
def dRecD1 : DocumentRec :=
  { id := "d1", title := "T", content := "hello", ownerId := "u1",
    documentUsers := [("u1", "owner")] }

/-- A database holding only `dRecD1`. -/
def dbD1 : DocumentDB := [dRecD1]

/-- Claim C2 counterexample: The content cache holds exactly the submitted
body (`hasChanged` would report no change), yet the endpoint's response
is the updated document — not `{jobId: null, status: "skipped", reason:
"no_changes"}` — because the handler never consults the cache; and the
queue is untouched on every path, so no `{jobId, status: "queued"}`
response exists either. -/
theorem update_skip_counterexample :
    (hasDocumentContentChanged
      (.hit { content := "hello", title := some "T", cachedAt := "t0",
              version := 1 }) "hello" none).hasChanged = false ∧
    (updateDocumentEndpoint dbD1 [] "u1" "d1" none (some "hello")).1 =
      .okDocument dRecD1 "Document updated successfully" ∧
    (updateDocumentEndpoint dbD1 [] "u1" "d1" none (some "hello")).1 ≠
      .okSkipped none "skipped" "no_changes" ∧
    (updateDocumentEndpoint dbD1 [] "u1" "d1" none (some "hello")).2.2 = [] := by
  refine ⟨rfl, rfl, ?_, rfl⟩
  decide

/-- Claim C2 amended: `PUT /documents/:id` performs the durable write
synchronously on the request path: the queue is never touched (no
response ever carries a skipped or queued status), a failed permission
check yields the 404 response, and an authorized request updates the
found document with the provided fields and returns it. -/
theorem updateDocument_synchronous (db : DocumentDB) (queue : List QueueJob)
    (userId documentId : String) (title content : Option String) :
    (updateDocumentEndpoint db queue userId documentId title content).2.2 =
      queue ∧
    (∀ jid st rsn,
      (updateDocumentEndpoint db queue userId documentId title content).1 ≠
        UpdateHttpResponse.okSkipped jid st rsn) ∧
    (∀ jid st,
      (updateDocumentEndpoint db queue userId documentId title content).1 ≠
        UpdateHttpResponse.okQueued jid st) ∧
    (checkUserPermission db documentId userId ["owner", "editor"] = false →
      (updateDocumentEndpoint db queue userId documentId title content).1 =
        .notFound "Document not found or insufficient permissions") ∧
    (∀ d, checkUserPermission db documentId userId ["owner", "editor"] = true →
      db.find? (fun r => r.id = documentId) = some d →
      (updateDocumentEndpoint db queue userId documentId title content).1 =
        .okDocument
          { d with
             title := title.getD d.title, content := content.getD d.content }
          "Document updated successfully") := by
  unfold updateDocumentEndpoint serviceUpdateDocument
  by_cases hperm : checkUserPermission db documentId userId ["owner", "editor"]
  · rw [if_pos hperm]
    cases hfind : db.find? (fun d => d.id = documentId) with
    | none =>
        refine ⟨rfl, ?_, ?_, ?_, ?_⟩
        · intro jid st rsn h
          simp at h
        · intro jid st h
          simp at h
        · intro hpf
          exact absurd hperm (by simp [hpf])
        · intro d _ hfd
          simp at hfd
    | some d =>
        refine ⟨rfl, ?_, ?_, ?_, ?_⟩
        · intro jid st rsn h
          simp at h
        · intro jid st h
          simp at h
        · intro hpf
          exact absurd hperm (by simp [hpf])
        · intro d0 _ hfd
          injection hfd with hdd
          subst hdd
          rfl
  · rw [if_neg hperm]
    refine ⟨rfl, ?_, ?_, ?_, ?_⟩
    · intro jid st rsn h
      simp at h
    · intro jid st h
      simp at h
    · intro _
      rfl
    · intro d hpt _
      exact absurd hpt hperm

/-- Witness for `updateDocument_synchronous`: an authorized update of
`d1`'s body to `"world"` returns the updated document. -/
theorem updateDocument_synchronous_witness :
    checkUserPermission dbD1 "d1" "u1" ["owner", "editor"] = true ∧
    dbD1.find? (fun r => r.id = "d1") = some dRecD1 ∧
    (updateDocumentEndpoint dbD1 [] "u1" "d1" none (some "world")).1 =
      .okDocument { dRecD1 with content := "world" }
        "Document updated successfully" :=
  ⟨by decide, by decide,
   (updateDocument_synchronous dbD1 [] "u1" "d1" none (some "world")).2.2.2.2
     dRecD1 (by decide) (by decide)⟩

/-! Section: C10: job id format vs the retry route's validation -/

theorem isDigitCh_base36 (d : Nat) (hd : d < 10) :
    isDigitCh (base36Char d) = true := by
  have h : ∀ e : Fin 10, isDigitCh (base36Char e.val) = true := by decide
  exact h ⟨d, hd⟩

theorem isLowerAlnumCh_base36 (d : Nat) (hd : d < 36) :
    isLowerAlnumCh (base36Char d) = true := by
  have h : ∀ e : Fin 36, isLowerAlnumCh (base36Char e.val) = true := by decide
  exact h ⟨d, hd⟩

theorem natDecDigitsCore_shape (fuel : Nat) : ∀ (n : Nat) (acc : List Char),
    ∃ l, l ≠ [] ∧ (∀ c ∈ l, isDigitCh c = true) ∧
      natDecDigitsCore (fuel + 1) n acc = l ++ acc := by
  induction fuel with
  | zero =>
      intro n acc
      have hstep : natDecDigitsCore (0 + 1) n acc =
          if n < 10 then base36Char (n % 10) :: acc
          else natDecDigitsCore 0 (n / 10) (base36Char (n % 10) :: acc) := rfl
      refine ⟨[base36Char (n % 10)], by simp, ?_, ?_⟩
      · intro c hc
        rw [List.mem_singleton] at hc
        subst hc
        exact isDigitCh_base36 (n % 10) (Nat.mod_lt n (by decide))
      · rw [hstep]
        by_cases hn : n < 10
        · rw [if_pos hn]
          rfl
        · rw [if_neg hn]
          rfl
  | succ f ih =>
      intro n acc
      have hstep : natDecDigitsCore (f + 1 + 1) n acc =
          if n < 10 then base36Char (n % 10) :: acc
          else natDecDigitsCore (f + 1) (n / 10) (base36Char (n % 10) :: acc) := rfl
      by_cases hn : n < 10
      · refine ⟨[base36Char (n % 10)], by simp, ?_, ?_⟩
        · intro c hc
          rw [List.mem_singleton] at hc
          subst hc
          exact isDigitCh_base36 (n % 10) (Nat.mod_lt n (by decide))
        · rw [hstep, if_pos hn]
          rfl
      · obtain ⟨l, hl, hld, heq⟩ := ih (n / 10) (base36Char (n % 10) :: acc)
        refine ⟨l ++ [base36Char (n % 10)], by simp, ?_, ?_⟩
        · intro c hc
          rcases List.mem_append.mp hc with h | h
          · exact hld c h
          · rw [List.mem_singleton] at h
            subst h
            exact isDigitCh_base36 (n % 10) (Nat.mod_lt n (by decide))
        · rw [hstep, if_neg hn, heq, List.append_assoc]
          rfl

theorem natDecDigits_shape (n : Nat) :
    natDecDigits n ≠ [] ∧ ∀ c ∈ natDecDigits n, isDigitCh c = true := by
  obtain ⟨l, hl, hld, heq⟩ := natDecDigitsCore_shape n n []
  unfold natDecDigits
  rw [heq, List.append_nil]
  exact ⟨hl, hld⟩

theorem takeWhile_append_all (p : Char → Bool) (l : List Char) (c : Char)
    (r : List Char) (hl : ∀ x ∈ l, p x = true) (hc : p c = false) :
    (l ++ c :: r).takeWhile p = l ∧ (l ++ c :: r).dropWhile p = c :: r := by
  induction l with
  | nil => simp [List.takeWhile_cons, List.dropWhile_cons, hc]
  | cons y t ih =>
      have hy : p y = true := hl y (List.mem_cons_self y t)
      have ht : ∀ x ∈ t, p x = true := fun x hx => hl x (List.mem_cons_of_mem y hx)
      obtain ⟨h1, h2⟩ := ih ht
      constructor
      · rw [List.cons_append, List.takeWhile_cons, hy, h1]
        rfl
      · rw [List.cons_append, List.dropWhile_cons, hy, h2]
        rfl

theorem str_data_append (s t : String) : (s ++ t).data = s.data ++ t.data := rfl

/-- Claim C10 counterexample: `Math.random()` may return exactly `0`, whose
`toString(36)` is `"0"`; `substr(2, 9)` is then empty and the generated
id `job_0_` fails the retry route's pattern `^job_\d+_[a-z0-9]+$`, which
requires a nonempty `[a-z0-9]+` suffix. -/
theorem generateJobId_zero_random_rejected :
    generateJobId 0 [] = "job_0_" ∧
    jobIdPatternTest (generateJobId 0 []) = false := by
  constructor
  · rfl
  · rfl

/-- Claim C10 amended: For every clock value and every nonzero value of the
random source (a nonempty base-36 fractional expansion), the generated
job id matches the retry route's pattern `^job_\d+_[a-z0-9]+$`; only the
measure-zero draw `Math.random() = 0` produces an empty suffix that the
validation rejects. -/
theorem generateJobId_matches (nowMs : Nat) (digits : List (Fin 36))
    (hne : digits ≠ []) :
    jobIdPatternTest (generateJobId nowMs digits) = true := by
  obtain ⟨hdne, hdall⟩ := natDecDigits_shape nowMs
  have hsfx : ((randomToString36 digits).drop 2).take 9 =
      (digits.map (fun d => base36Char d.val)).take 9 := by
    unfold randomToString36
    rw [if_neg (by simpa using hne)]
    rfl
  have hdata : (generateJobId nowMs digits).data =
      'j' :: 'o' :: 'b' :: '_' ::
        (natDecDigits nowMs ++ '_' ::
          (digits.map (fun d => base36Char d.val)).take 9) := by
    unfold generateJobId
    rw [str_data_append, str_data_append, str_data_append, hsfx]
    have hj : "job_".data = ['j', 'o', 'b', '_'] := rfl
    have hu : "_".data = ['_'] := rfl
    rw [hj, hu]
    simp
  have hund : isDigitCh '_' = false := by decide
  obtain ⟨htw, hdw⟩ :=
    takeWhile_append_all isDigitCh (natDecDigits nowMs) '_'
      ((digits.map (fun d => base36Char d.val)).take 9) hdall hund
  unfold jobIdPatternTest
  rw [hdata]
  show (decide ((natDecDigits nowMs ++ '_' ::
      (digits.map (fun d => base36Char d.val)).take 9).takeWhile isDigitCh ≠ []) &&
    (match (natDecDigits nowMs ++ '_' ::
        (digits.map (fun d => base36Char d.val)).take 9).dropWhile isDigitCh with
     | '_' :: sfx => decide (sfx ≠ []) && sfx.all isLowerAlnumCh
     | _ => false)) = true
  rw [htw, hdw]
  have hsne : (digits.map (fun d => base36Char d.val)).take 9 ≠ [] := by
    cases digits with
    | nil => exact absurd rfl hne
    | cons d ds =>
        rw [List.map_cons, List.take_cons (by decide : (0:Nat) < 9)]
        simp
  have hsall : ((digits.map (fun d => base36Char d.val)).take 9).all
      isLowerAlnumCh = true := by
    rw [List.all_eq_true]
    intro c hc
    have hcm := List.mem_of_mem_take hc
    rcases List.mem_map.mp hcm with ⟨d, _, hdc⟩
    rw [← hdc]
    exact isLowerAlnumCh_base36 d.val d.isLt
  show (decide (natDecDigits nowMs ≠ []) &&
    (decide ((digits.map (fun d => base36Char d.val)).take 9 ≠ []) &&
      ((digits.map (fun d => base36Char d.val)).take 9).all isLowerAlnumCh)) = true
  rw [hsall]
  simp [hdne, hsne]

/-- Witness for `generateJobId_matches`: random value `0.a₃₆` at clock 5
gives `job_5_a`, accepted by the pattern. -/
theorem generateJobId_matches_witness :
    ([(⟨10, by decide⟩ : Fin 36)] : List (Fin 36)) ≠ [] ∧
    jobIdPatternTest (generateJobId 5 [(⟨10, by decide⟩ : Fin 36)]) = true :=
  ⟨by decide, generateJobId_matches 5 [⟨10, by decide⟩] (by decide)⟩

/-! Section: C6: rate limiter -/

theorem runAttempts_append (cfg : RateLimitConfig) (s : RateLimitState)
    (l1 l2 : List Nat) :
    runAttempts cfg s (l1 ++ l2) =
      ((runAttempts cfg s l1).1 ++
        (runAttempts cfg (runAttempts cfg s l1).2 l2).1,
       (runAttempts cfg (runAttempts cfg s l1).2 l2).2) := by
  induction l1 generalizing s with
  | nil => rfl
  | cons t rest ih =>
      rw [List.cons_append]
      show ((admitStep cfg s t).1 ::
        (runAttempts cfg (admitStep cfg s t).2 (rest ++ l2)).1,
        (runAttempts cfg (admitStep cfg s t).2 (rest ++ l2)).2) = _
      rw [ih]
      rfl

theorem ceilDiv1000_ge (b : Nat) : b ≤ ceilDiv1000 b * 1000 := by
  unfold ceilDiv1000
  have h := Nat.div_add_mod (b + 999) 1000
  have h2 := Nat.mod_lt (b + 999) (show 0 < 1000 by decide)
  omega

/-- Filling the window: from a fresh bucket, attempts at pairwise
distinct times (all within the window seen from `tN`, which is not
earlier than any of them) are all admitted, and the sorted set ends up
holding exactly those timestamps. -/
theorem runAttempts_fill (cfg : RateLimitConfig)
    (hW : cfg.windowMs < 7200000) :
    ∀ (ts : List Nat) (tN : Nat), ts.Nodup →
    (∀ t ∈ ts, t ≤ tN ∧ tN ≤ t + cfg.windowMs) →
    ts.length ≤ cfg.maxMessages →
    runAttempts cfg rlEmpty ts =
      (List.replicate ts.length true,
       { window := ts.reverse,
         windowExpiresAt := ts.getLast?.map (· + 7200000),
         blocked := none }) := by
  intro ts
  induction ts using List.reverseRecOn with
  | nil =>
      intro tN _ _ _
      rfl
  | append_singleton l t ih =>
      intro tN hnd helems hlen
      have hlnd : l.Nodup := (List.nodup_append.mp hnd).1
      have htnotin : t ∉ l := by
        intro hmem
        have hdisj := List.disjoint_of_nodup_append hnd
        exact hdisj hmem (List.mem_singleton_self t)
      have hlelems : ∀ x ∈ l, x ≤ tN ∧ tN ≤ x + cfg.windowMs :=
        fun x hx => helems x (List.mem_append_left _ hx)
      have htel : t ≤ tN ∧ tN ≤ t + cfg.windowMs :=
        helems t (List.mem_append_right _ (List.mem_singleton_self t))
      have hllen : l.length ≤ cfg.maxMessages := by
        have := hlen
        rw [List.length_append, List.length_singleton] at this
        omega
      have hlN : l.length < cfg.maxMessages := by
        have := hlen
        rw [List.length_append, List.length_singleton] at this
        omega
      rw [runAttempts_append, ih tN hlnd hlelems hllen]
      -- the filled prefix state
      set s1 : RateLimitState :=
        { window := l.reverse,
          windowExpiresAt := l.getLast?.map (· + 7200000),
          blocked := none } with hs1
      have hwin : getWindow s1 t = l.reverse := by
        rw [hs1]
        cases hl : l.getLast? with
        | none => rfl
        | some tl =>
            have htl_mem : tl ∈ l := List.mem_of_mem_getLast? hl
            have h1 : tN ≤ tl + cfg.windowMs := (hlelems tl htl_mem).2
            have h2 : t ≤ tN := htel.1
            show (if tl + 7200000 ≤ t then [] else l.reverse) = l.reverse
            rw [if_neg (by omega)]
      have hcount :
          ((getWindow s1 t).filter (fun x => t - cfg.windowMs ≤ x)).length <
            cfg.maxMessages := by
        calc ((getWindow s1 t).filter (fun x => t - cfg.windowMs ≤ x)).length
            ≤ (getWindow s1 t).length := List.length_filter_le _ _
          _ = l.length := by rw [hwin, List.length_reverse]
          _ < cfg.maxMessages := hlN
      have hstep : admitStep cfg s1 t =
          (true,
           { window := t :: l.reverse,
             windowExpiresAt := some (t + 7200000),
             blocked := none }) := by
        unfold admitStep isRateLimited
        have hgb : getBlock s1 t = none := rfl
        rw [hgb]
        show (let r := checkRateWindow cfg s1 t;
          if r.1.isLimited then (false, r.2)
          else (true, incrementRateLimit r.2 t)) = _
        have hcheck : checkRateWindow cfg s1 t =
            ({ isLimited := false,
               remaining := cfg.maxMessages -
                 ((getWindow s1 t).filter
                   (fun x => t - cfg.windowMs ≤ x)).length,
               resetTime := t - cfg.windowMs + cfg.windowMs,
               blockedUntil := none }, s1) := by
          unfold checkRateWindow
          rw [if_neg (Nat.not_le.mpr hcount)]
        rw [hcheck]
        show (true, incrementRateLimit s1 t) = _
        have hnc : (l.reverse.contains t) = false := by
          rw [Bool.eq_false_iff]
          intro hc
          have hmem : t ∈ l.reverse := by simpa using hc
          exact htnotin (List.mem_reverse.mp hmem)
        have hinc : incrementRateLimit s1 t =
            ⟨t :: l.reverse, some (t + 7200000), none⟩ := by
          unfold incrementRateLimit
          rw [hwin, hs1]
          simp only [hnc]
          rfl
        rw [hinc]
      have hrun1 : runAttempts cfg s1 [t] =
          ([true],
           { window := t :: l.reverse,
             windowExpiresAt := some (t + 7200000),
             blocked := none }) := by
        show ((admitStep cfg s1 t).1 ::
          (runAttempts cfg (admitStep cfg s1 t).2 []).1,
          (runAttempts cfg (admitStep cfg s1 t).2 []).2) = _
        rw [hstep]
        rfl
      rw [hrun1]
      have hres : List.replicate l.length true ++ [true] =
          List.replicate (l ++ [t]).length true := by
        rw [List.length_append, List.length_singleton, ← List.replicate_succ']
      have hst : (⟨t :: l.reverse, some (t + 7200000), none⟩ : RateLimitState) =
          ⟨(l ++ [t]).reverse, (l ++ [t]).getLast?.map (· + 7200000), none⟩ := by
        rw [List.reverse_append, List.getLast?_concat]
        rfl
      rw [hres, hst]

/-- From the filled window, the next attempt — no earlier than and within
`windowMs` of every recorded timestamp — is rejected and a block of
`now + blockDurationMs` is written (`SETEX` with a TTL of
`ceil(blockDurationMs / 1000)` seconds). -/
theorem fillState_reject (cfg : RateLimitConfig)
    (hN : 1 ≤ cfg.maxMessages) (hW : cfg.windowMs < 7200000)
    (ts : List Nat) (tN : Nat) (hlen : ts.length = cfg.maxMessages)
    (helems : ∀ t ∈ ts, t ≤ tN ∧ tN ≤ t + cfg.windowMs) :
    admitStep cfg ⟨ts.reverse, ts.getLast?.map (· + 7200000), none⟩ tN =
      (false,
       ⟨ts.reverse, ts.getLast?.map (· + 7200000),
        some ⟨tN + cfg.blockDurationMs,
              tN + ceilDiv1000 cfg.blockDurationMs * 1000⟩⟩) := by
  set s1 : RateLimitState :=
    ⟨ts.reverse, ts.getLast?.map (· + 7200000), none⟩ with hs1
  have hne : ts ≠ [] := by
    intro h
    rw [h] at hlen
    simp at hlen
    omega
  obtain ⟨tl, hl⟩ : ∃ tl, ts.getLast? = some tl := by
    cases hgl : ts.getLast? with
    | none => exact absurd (List.getLast?_eq_none_iff.mp hgl) hne
    | some tl => exact ⟨tl, rfl⟩
  have htl_mem := List.mem_of_mem_getLast? hl
  have hwin : getWindow s1 tN = ts.reverse := by
    rw [hs1, hl]
    show (if tl + 7200000 ≤ tN then [] else ts.reverse) = ts.reverse
    have h2 := (helems tl htl_mem).2
    rw [if_neg (by omega)]
  have hfilter : ts.reverse.filter (fun x => tN - cfg.windowMs ≤ x) =
      ts.reverse := by
    rw [List.filter_eq_self]
    intro a ha
    have hmem := List.mem_reverse.mp ha
    have h2 := (helems a hmem).2
    simpa using Nat.sub_le_iff_le_add.mpr h2
  have hcount : cfg.maxMessages ≤
      ((getWindow s1 tN).filter (fun x => tN - cfg.windowMs ≤ x)).length := by
    rw [hwin, hfilter, List.length_reverse, hlen]
  unfold admitStep isRateLimited
  have hgb : getBlock s1 tN = none := by
    rw [hs1]
    rfl
  rw [hgb]
  show (let r := checkRateWindow cfg s1 tN;
    if r.1.isLimited then (false, r.2)
    else (true, incrementRateLimit r.2 tN)) = _
  have hcheck : checkRateWindow cfg s1 tN =
      ({ isLimited := true, remaining := 0,
         resetTime := tN - cfg.windowMs + cfg.windowMs,
         blockedUntil := some (tN + cfg.blockDurationMs) },
       { s1 with blocked := some ⟨tN + cfg.blockDurationMs,
           tN + ceilDiv1000 cfg.blockDurationMs * 1000⟩ }) := by
    unfold checkRateWindow
    rw [if_pos hcount]
  rw [hcheck, hs1]
  rfl

/-- A live block in the future rejects without touching the state. -/
theorem blocked_step_rejected (cfg : RateLimitConfig) (s : RateLimitState)
    (bu exp u : Nat) (hb : s.blocked = some ⟨bu, exp⟩) (hu : u < bu)
    (hexp : u < exp) : admitStep cfg s u = (false, s) := by
  unfold admitStep isRateLimited
  have hgb : getBlock s u = some bu := by
    unfold getBlock
    rw [hb]
    show (if exp ≤ u then none else some bu) = some bu
    rw [if_neg (by omega)]
  rw [hgb]
  show (let r := if u < bu then
      (({ isLimited := true, remaining := 0, resetTime := bu,
          blockedUntil := some bu } : RateLimitResult), s)
    else checkRateWindow cfg { s with blocked := none } u;
    if r.1.isLimited then (false, r.2)
    else (true, incrementRateLimit r.2 u)) = (false, s)
  rw [if_pos hu]
  rfl

/-- Claim C6 counterexample: For the configured `yjs-update` type
`{max = 50, window = 1000, block = 5000}`, 51 admission attempts all in
the same millisecond are all admitted — the 51st is not rejected —
because the sorted-set member is the timestamp's string (`ZADD` with
`value: now.toString()`), so same-millisecond admissions collapse into a
single recorded member and the window count never reaches the limit. -/
theorem rateLimit_same_millisecond_not_blocked :
    ("yjs-update",
      { maxMessages := 50, windowMs := 1000, blockDurationMs := 5000 }) ∈
        rateLimitConfigs ∧
    (runAttempts
      { maxMessages := 50, windowMs := 1000, blockDurationMs := 5000 }
      rlEmpty (List.replicate 51 0)).1 = List.replicate 51 true := by
  constructor
  · decide
  · decide

/-- Claim C6 amended: For every configured message type
`{max = N, window = W, block = B}` and attempts at **pairwise distinct**
timestamps: `N` admissions fill the window; the `N+1`-th attempt, no
earlier than and within `W` ms of every recorded timestamp, is rejected
and writes blocked-until `= now + B`; and every subsequent attempt
before `B` ms have elapsed since that rejection is rejected.  (Distinct
timestamps are required because `ZADD` keys members by the timestamp
string, collapsing same-millisecond admissions.) -/
theorem rateLimit_window_and_block (mt : String) (cfg : RateLimitConfig)
    (ts : List Nat) (tN u : Nat)
    (hcfg : (mt, cfg) ∈ rateLimitConfigs) (hnd : ts.Nodup)
    (hlen : ts.length = cfg.maxMessages)
    (helems : ∀ t ∈ ts, t ≤ tN ∧ tN ≤ t + cfg.windowMs)
    (_hu1 : tN ≤ u) (hu2 : u < tN + cfg.blockDurationMs) :
    (runAttempts cfg rlEmpty ts).1 =
      List.replicate cfg.maxMessages true ∧
    (admitStep cfg (runAttempts cfg rlEmpty ts).2 tN).1 = false ∧
    (admitStep cfg (runAttempts cfg rlEmpty ts).2 tN).2.blocked =
      some ⟨tN + cfg.blockDurationMs,
            tN + ceilDiv1000 cfg.blockDurationMs * 1000⟩ ∧
    (admitStep cfg
      (admitStep cfg (runAttempts cfg rlEmpty ts).2 tN).2 u).1 = false := by
  have hWN : cfg.windowMs < 7200000 ∧ 1 ≤ cfg.maxMessages := by
    simp only [rateLimitConfigs, List.mem_cons, List.mem_singleton] at hcfg
    rcases hcfg with h | h
    · rw [(Prod.mk.injEq _ _ _ _).mp h |>.2]
      exact ⟨by decide, by decide⟩
    · rcases h with h | h
      · rw [(Prod.mk.injEq _ _ _ _).mp h |>.2]
        exact ⟨by decide, by decide⟩
      · simp at h
  obtain ⟨hW, hN⟩ := hWN
  have hfill := runAttempts_fill cfg hW ts tN hnd helems (le_of_eq hlen)
  rw [hfill]
  have hrej := fillState_reject cfg hN hW ts tN hlen helems
  rw [hrej]
  have hceil := ceilDiv1000_ge cfg.blockDurationMs
  have hblk := blocked_step_rejected cfg
    ⟨ts.reverse, ts.getLast?.map (· + 7200000),
     some ⟨tN + cfg.blockDurationMs,
           tN + ceilDiv1000 cfg.blockDurationMs * 1000⟩⟩
    (tN + cfg.blockDurationMs)
    (tN + ceilDiv1000 cfg.blockDurationMs * 1000) u rfl (by omega) (by omega)
  rw [hblk]
  exact ⟨by rw [hlen], rfl, rfl, rfl⟩

/-- Witness for `rateLimit_window_and_block`: `yjs-update` with 50
admissions at milliseconds 0..49, a 51st attempt at 49 rejected and
blocked until 5049, and an attempt at 500 still rejected. -/
theorem rateLimit_window_and_block_witness :
    ("yjs-update",
      ({ maxMessages := 50, windowMs := 1000, blockDurationMs := 5000 } :
        RateLimitConfig)) ∈ rateLimitConfigs ∧
    (List.range 50).Nodup ∧
    (List.range 50).length =
      ({ maxMessages := 50, windowMs := 1000, blockDurationMs := 5000 } :
        RateLimitConfig).maxMessages ∧
    (∀ t ∈ List.range 50, t ≤ 49 ∧ 49 ≤ t + 1000) ∧
    49 ≤ 500 ∧ 500 < 49 + 5000 ∧
    (admitStep
      { maxMessages := 50, windowMs := 1000, blockDurationMs := 5000 }
      (admitStep
        { maxMessages := 50, windowMs := 1000, blockDurationMs := 5000 }
        (runAttempts
          { maxMessages := 50, windowMs := 1000, blockDurationMs := 5000 }
          rlEmpty (List.range 50)).2 49).2 500).1 = false :=
  ⟨by decide, by decide, by decide, by decide, by decide, by decide,
   (rateLimit_window_and_block "yjs-update"
     { maxMessages := 50, windowMs := 1000, blockDurationMs := 5000 }
     (List.range 50) 49 500 (by decide) (by decide) (by decide) (by decide)
     (by decide) (by decide)).2.2.2⟩

end SyncText
